import Mathlib

/-!
Shallow embedding of the xlsx size-audit script
(`src/xlsx_audit/py_xlsx_low_level_audit.py`, embedded standalone script):
the archive scanner `scan_xlsx`, the shared-strings marker counter
`count_shared_strings`, and the advisor `suggest_actions`.

Modelling conventions:
* ZIP central-directory entries become `MemberInfo` records (`filename`,
  `compress_size`, `file_size`), and an opened archive is its member index
  plus the result of streaming the member `xl/sharedStrings.xml` as a list
  of byte chunks (`none` models both `KeyError` — the member cannot be
  opened — and any other exception raised while streaming it, which the
  Python code catches and turns into `None`).
* Python floats are modelled by exact rationals; `round(x, 2)` becomes
  `round2`, rounding to two decimal places.  Both the code and the spec use
  the same rounding, so the choice of tie-breaking does not affect any
  claim.
* The suggestion strings are opaque: the advisor's contract is which rule
  fired and in which order, so suggestions are modelled by the inductive
  `Tip`, with the largest-item tip carrying the path it names.
* The filesystem is modelled as a partial map from paths to `FsEntry`
  (`none` = path does not exist, `corrupt` = exists but is not a readable
  ZIP, `valid` = an opened archive).
-/

namespace XlsxAudit

/-- One entry of the ZIP central directory, as surfaced by `zf.infolist()`:
`info.filename`, `info.compress_size`, `info.file_size`. -/
structure MemberInfo where
  filename : String
  compress_size : Nat
  file_size : Nat
deriving DecidableEq

/-- One per-member report row, as built inside the `for info in zf.infolist()`
loop of `scan_xlsx` (the dict with keys `path`, `uncompressed_bytes`,
`compressed_bytes`, `compression_savings_%`). -/
structure Row where
  path : String
  uncompressed_bytes : Nat
  compressed_bytes : Nat
  compression_savings : ℚ
deriving DecidableEq

/-- The `summary` dict returned by `scan_xlsx`. -/
structure Summary where
  total_uncompressed : Nat
  total_compressed : Nat
  overall_compression_savings : ℚ
  media_count : Nat
  media_uncompressed_total : Nat
  worksheets_uncompressed_total : Nat
  sharedStrings_uncompressed : Option Nat
  sharedStrings_est_count : Option Nat
deriving DecidableEq

/-- Python `round(x, 2)`, over exact rationals: round `x * 100` to the
nearest integer and divide back by `100`. -/
def round2 (x : ℚ) : ℚ :=
  ((round (x * 100) : ℤ) : ℚ) / 100

/-- `ratio = (1 - (comp / uncomp)) * 100 if uncomp > 0 else 0.0`. -/
def rawSavings (comp uncomp : Nat) : ℚ :=
  if 0 < uncomp then (1 - (comp : ℚ) / (uncomp : ℚ)) * 100 else 0

/-- `bytes.count(b"<si")`: the number of (necessarily non-overlapping,
since `<si` cannot overlap itself) occurrences of the marker bytes
`0x3C 0x73 0x69` in a byte string. -/
def countSi : List Nat → Nat
  | 60 :: 115 :: 105 :: rest => countSi rest + 1
  | _ :: rest => countSi rest
  | [] => 0

/-- `buf[-3:]`: the last three bytes of the buffer (all of it if shorter). -/
def lastThree (l : List Nat) : List Nat :=
  l.drop (l.length - 3)

/-- The chunk loop of `count_shared_strings`: starting from carry buffer
`buf`, for each chunk do `buf += chunk; count += buf.count(b"<si");
buf = buf[-3:]`, and return the accumulated count. -/
def countLoop (buf : List Nat) : List (List Nat) → Nat
  | [] => 0
  | c :: cs => countSi (buf ++ c) + countLoop (lastThree (buf ++ c)) cs

/-- An opened ZIP archive: its central-directory listing, and the result of
streaming the member `xl/sharedStrings.xml` as successive non-empty reads
(`none` models `KeyError` or any exception during the streaming, both of
which `count_shared_strings` catches and converts to `None`). -/
structure Archive where
  infolist : List MemberInfo
  ssChunks : Option (List (List Nat))
deriving DecidableEq

/-- `count_shared_strings(zf)`: stream `xl/sharedStrings.xml` in chunks,
counting `b"<si"` with a 3-byte carry between chunks; `None` when the member
is missing or any read fails. -/
def count_shared_strings (zf : Archive) : Option Nat :=
  match zf.ssChunks with
  | some cs => some (countLoop [] cs)
  | none => none

/-- The row dict appended for a member `info` inside the scan loop. -/
def mkRow (info : MemberInfo) : Row :=
  { path := info.filename
    uncompressed_bytes := info.file_size
    compressed_bytes := info.compress_size
    compression_savings := round2 (rawSavings info.compress_size info.file_size) }

/-- The accumulator state of the `for info in zf.infolist()` loop. -/
structure Acc where
  rows : List Row
  total_uncompressed : Nat
  total_compressed : Nat
  media_total : Nat
  media_count : Nat
  worksheets_total : Nat
  sharedstrings_size : Option Nat
deriving DecidableEq

/-- The loop's initial state. -/
def initAcc : Acc :=
  { rows := []
    total_uncompressed := 0
    total_compressed := 0
    media_total := 0
    media_count := 0
    worksheets_total := 0
    sharedstrings_size := none }

/-- One iteration of the scan loop: accumulate totals, classify by path
(`xl/media/` and `xl/worksheets/` are path-prefix tests, the shared-strings
part an exact-name test), and append the member's row. -/
def step (acc : Acc) (info : MemberInfo) : Acc :=
  { rows := acc.rows ++ [mkRow info]
    total_uncompressed := acc.total_uncompressed + info.file_size
    total_compressed := acc.total_compressed + info.compress_size
    media_total :=
      if info.filename.startsWith "xl/media/" then acc.media_total + info.file_size
      else acc.media_total
    media_count :=
      if info.filename.startsWith "xl/media/" then acc.media_count + 1
      else acc.media_count
    worksheets_total :=
      if info.filename.startsWith "xl/worksheets/" then acc.worksheets_total + info.file_size
      else acc.worksheets_total
    sharedstrings_size :=
      if info.filename = "xl/sharedStrings.xml" then some info.file_size
      else acc.sharedstrings_size }

/-- The whole scan loop over the member index, in enumeration order. -/
def scanFold (ms : List MemberInfo) : Acc :=
  ms.foldl step initAcc

/-- Insert a row into a descending-sorted list, before the first element
whose key is `≤` its own: together with `sortRows` this is the standard
stable descending sort, the behaviour of Python's
`rows.sort(key=lambda r: r["uncompressed_bytes"], reverse=True)`. -/
def insertRow (x : Row) : List Row → List Row
  | [] => [x]
  | y :: ys =>
      if y.uncompressed_bytes ≤ x.uncompressed_bytes then x :: y :: ys
      else y :: insertRow x ys

/-- Stable sort of the rows, descending by `uncompressed_bytes`. -/
def sortRows : List Row → List Row
  | [] => []
  | x :: xs => insertRow x (sortRows xs)

/-- The body of `scan_xlsx` after the archive has been opened: run the scan
loop, optionally estimate the shared-strings entry count (only when the
member was seen in the index), sort the rows, and build the summary. -/
def scanArchive (zf : Archive) : List Row × Summary :=
  let acc := scanFold zf.infolist
  let cnt : Option Nat :=
    if acc.sharedstrings_size.isSome then count_shared_strings zf else none
  (sortRows acc.rows,
    { total_uncompressed := acc.total_uncompressed
      total_compressed := acc.total_compressed
      overall_compression_savings :=
        if acc.total_uncompressed ≠ 0 then
          round2 ((1 - (acc.total_compressed : ℚ) / (acc.total_uncompressed : ℚ)) * 100)
        else 0
      media_count := acc.media_count
      media_uncompressed_total := acc.media_total
      worksheets_uncompressed_total := acc.worksheets_total
      sharedStrings_uncompressed := acc.sharedstrings_size
      sharedStrings_est_count := cnt })

/-- What a path refers to on disk: nothing, a file that is not a readable
ZIP archive, or a valid archive. -/
inductive FsEntry where
  | corrupt
  | valid (zf : Archive)
deriving DecidableEq

/-- The scan's error taxonomy: `FileNotFoundError` and `zipfile.BadZipFile`. -/
inductive ScanError where
  | notFound
  | corruptArchive
deriving DecidableEq

/-- `scan_xlsx(path)`: raise `FileNotFoundError` when the path does not
exist, fail when the file is not a valid archive, and otherwise scan it. -/
def scan_xlsx (fs : String → Option FsEntry) (path : String) :
    Except ScanError (List Row × Summary) :=
  match fs path with
  | none => Except.error ScanError.notFound
  | some FsEntry.corrupt => Except.error ScanError.corruptArchive
  | some (FsEntry.valid zf) => Except.ok (scanArchive zf)

/-- A suggestion emitted by the advisor; the exact wording is opaque, each
constructor stands for one rule's text, with the largest-item tip carrying
the path it names. -/
inductive Tip where
  | media
  | sharedStringsBloat
  | worksheetsUsedRange
  | largest (path : String)
  | fallback
deriving DecidableEq

/-- Rule 1's condition:
`summary.get("media_count", 0) > 0 and summary.get("media_uncompressed_total", 0) > 10 * 1024 * 1024`. -/
def mediaFires (summary : Summary) : Bool :=
  decide (0 < summary.media_count) &&
    decide (10 * 1024 * 1024 < summary.media_uncompressed_total)

/-- Rule 2's condition on `ss = summary.get("sharedStrings_uncompressed")`:
`ss and ss > 10 * 1024 * 1024` (Python truthiness: `None` and `0` are falsy). -/
def ssFires (ss : Option Nat) : Bool :=
  match ss with
  | none => false
  | some v => decide (v ≠ 0) && decide (10 * 1024 * 1024 < v)

/-- Rule 3's condition:
`summary.get("worksheets_uncompressed_total", 0) > 20 * 1024 * 1024`. -/
def worksheetsFires (summary : Summary) : Bool :=
  decide (20 * 1024 * 1024 < summary.worksheets_uncompressed_total)

/-- `suggest_actions(summary, top_paths)`: evaluate rules 1-3, then the
largest-item rule on `top_paths[0]`, then append the generic fallback when
the tip list is still empty. -/
def suggest_actions (summary : Summary) (top_paths : List Row) : List Tip :=
  let tips : List Tip := []
  let tips := if mediaFires summary then tips ++ [Tip.media] else tips
  let tips :=
    if ssFires summary.sharedStrings_uncompressed then tips ++ [Tip.sharedStringsBloat]
    else tips
  let tips := if worksheetsFires summary then tips ++ [Tip.worksheetsUsedRange] else tips
  let tips :=
    match top_paths with
    | [] => tips
    | worst :: _ => tips ++ [Tip.largest worst.path]
  if tips.isEmpty then tips ++ [Tip.fallback] else tips

/-! ### Helper lemmas about the stable sort and the scan loop -/

theorem insertRow_perm (x : Row) (l : List Row) :
    (insertRow x l).Perm (x :: l) := by
  induction l with
  | nil => simp [insertRow]
  | cons y ys ih =>
      by_cases h : y.uncompressed_bytes ≤ x.uncompressed_bytes
      · simp [insertRow, h]
      · simp only [insertRow, if_neg h]
        exact (ih.cons y).trans (List.Perm.swap x y ys)

theorem sortRows_perm (l : List Row) : (sortRows l).Perm l := by
  induction l with
  | nil => simp [sortRows]
  | cons x xs ih =>
      exact (insertRow_perm x (sortRows xs)).trans (ih.cons x)

theorem insertRow_pairwise (x : Row) (l : List Row)
    (h : List.Pairwise (fun a b => b.uncompressed_bytes ≤ a.uncompressed_bytes) l) :
    List.Pairwise (fun a b => b.uncompressed_bytes ≤ a.uncompressed_bytes)
      (insertRow x l) := by
  induction l with
  | nil => simp [insertRow]
  | cons y ys ih =>
      rcases List.pairwise_cons.mp h with ⟨hy, hys⟩
      by_cases hc : y.uncompressed_bytes ≤ x.uncompressed_bytes
      · simp only [insertRow, if_pos hc]
        refine List.pairwise_cons.mpr ⟨?_, h⟩
        intro z hz
        rcases List.mem_cons.mp hz with rfl | hz
        · exact hc
        · exact le_trans (hy z hz) hc
      · simp only [insertRow, if_neg hc]
        refine List.pairwise_cons.mpr ⟨?_, ih hys⟩
        intro z hz
        rcases List.mem_cons.mp ((insertRow_perm x ys).mem_iff.mp hz) with rfl | hz
        · omega
        · exact hy z hz

theorem sortRows_pairwise (l : List Row) :
    List.Pairwise (fun a b => b.uncompressed_bytes ≤ a.uncompressed_bytes)
      (sortRows l) := by
  induction l with
  | nil => simp [sortRows]
  | cons x xs ih => exact insertRow_pairwise x (sortRows xs) ih

theorem filter_insertRow (x : Row) (l : List Row) (k : Nat) :
    (insertRow x l).filter (fun r => r.uncompressed_bytes == k) =
      if x.uncompressed_bytes = k
      then x :: l.filter (fun r => r.uncompressed_bytes == k)
      else l.filter (fun r => r.uncompressed_bytes == k) := by
  induction l with
  | nil =>
      by_cases h : x.uncompressed_bytes = k <;> simp [insertRow, h]
  | cons y ys ih =>
      by_cases hc : y.uncompressed_bytes ≤ x.uncompressed_bytes
      · simp only [insertRow, if_pos hc]
        by_cases h : x.uncompressed_bytes = k <;>
          simp [List.filter_cons, h]
      · simp only [insertRow, if_neg hc]
        by_cases h : x.uncompressed_bytes = k
        · have hy : ¬ y.uncompressed_bytes = k := by omega
          simp [List.filter_cons, ih, h, hy]
        · simp [List.filter_cons, ih, h]

theorem filter_sortRows (l : List Row) (k : Nat) :
    (sortRows l).filter (fun r => r.uncompressed_bytes == k) =
      l.filter (fun r => r.uncompressed_bytes == k) := by
  induction l with
  | nil => simp [sortRows]
  | cons x xs ih =>
      by_cases h : x.uncompressed_bytes = k <;>
        simp [sortRows, filter_insertRow, h, ih, List.filter_cons]

theorem foldl_step_rows (ms : List MemberInfo) (acc : Acc) :
    (ms.foldl step acc).rows = acc.rows ++ ms.map mkRow := by
  induction ms generalizing acc with
  | nil => simp
  | cons m ms ih => simp [ih, step, List.append_assoc]

theorem foldl_step_tu (ms : List MemberInfo) (acc : Acc) :
    (ms.foldl step acc).total_uncompressed =
      acc.total_uncompressed + (ms.map MemberInfo.file_size).sum := by
  induction ms generalizing acc with
  | nil => simp
  | cons m ms ih => simp [ih, step]; omega

theorem foldl_step_tc (ms : List MemberInfo) (acc : Acc) :
    (ms.foldl step acc).total_compressed =
      acc.total_compressed + (ms.map MemberInfo.compress_size).sum := by
  induction ms generalizing acc with
  | nil => simp
  | cons m ms ih => simp [ih, step]; omega

theorem foldl_step_ss (ms : List MemberInfo) (acc : Acc)
    (h : ∀ m ∈ ms, m.filename ≠ "xl/sharedStrings.xml") :
    (ms.foldl step acc).sharedstrings_size = acc.sharedstrings_size := by
  induction ms generalizing acc with
  | nil => simp
  | cons m ms ih =>
      have hm : m.filename ≠ "xl/sharedStrings.xml" := h m (List.mem_cons_self m ms)
      simp only [List.foldl_cons]
      rw [ih _ (fun x hx => h x (List.mem_cons_of_mem m hx))]
      simp [step, hm]

theorem round2_zero : round2 0 = 0 := by
  simp [round2]

/-! ### Claim theorems -/

/-- C3: for every archive accepted by the scan, the sum of
`uncompressed_bytes` over all returned rows equals
`summary.total_uncompressed`, and the sum of `compressed_bytes` over all
returned rows equals `summary.total_compressed`. -/
theorem scan_totals (zf : Archive) :
    (((scanArchive zf).1).map Row.uncompressed_bytes).sum =
      (scanArchive zf).2.total_uncompressed ∧
    (((scanArchive zf).1).map Row.compressed_bytes).sum =
      (scanArchive zf).2.total_compressed := by
  simp only [scanArchive]
  constructor
  · rw [((sortRows_perm (scanFold zf.infolist).rows).map Row.uncompressed_bytes).sum_eq]
    rw [show (scanFold zf.infolist).rows = zf.infolist.map mkRow by
      simpa [initAcc] using foldl_step_rows zf.infolist initAcc]
    rw [show (scanFold zf.infolist).total_uncompressed =
        (zf.infolist.map MemberInfo.file_size).sum by
      simpa [initAcc] using foldl_step_tu zf.infolist initAcc]
    simp [List.map_map, Function.comp_def, mkRow]
  · rw [((sortRows_perm (scanFold zf.infolist).rows).map Row.compressed_bytes).sum_eq]
    rw [show (scanFold zf.infolist).rows = zf.infolist.map mkRow by
      simpa [initAcc] using foldl_step_rows zf.infolist initAcc]
    rw [show (scanFold zf.infolist).total_compressed =
        (zf.infolist.map MemberInfo.compress_size).sum by
      simpa [initAcc] using foldl_step_tc zf.infolist initAcc]
    simp [List.map_map, Function.comp_def, mkRow]

/-- C4: for every archive accepted by the scan, the returned rows are
sorted non-increasing by `uncompressed_bytes`, and the sort is stable: for
every key `k`, the rows with that key appear in exactly the order in which
the loop produced them from the archive's original enumeration order. -/
theorem scan_rows_sorted_stable (zf : Archive) :
    List.Pairwise (fun a b => b.uncompressed_bytes ≤ a.uncompressed_bytes)
      (scanArchive zf).1 ∧
    ∀ k : Nat,
      ((scanArchive zf).1).filter (fun r => r.uncompressed_bytes == k) =
        (zf.infolist.map mkRow).filter (fun r => r.uncompressed_bytes == k) := by
  have hrows : (scanFold zf.infolist).rows = zf.infolist.map mkRow := by
    simpa [initAcc] using foldl_step_rows zf.infolist initAcc
  constructor
  · simpa only [scanArchive] using sortRows_pairwise (scanFold zf.infolist).rows
  · intro k
    simpa only [scanArchive, hrows] using
      filter_sortRows (zf.infolist.map mkRow) k

/-- C5: every returned row's `compression_savings_%` is exactly `0` when
its `uncompressed_bytes` is `0` and otherwise `round((1 - compressed /
uncompressed) * 100, 2)`; the summary's overall percentage obeys the same
zero-guarded formula, so a zero-byte member (or an all-empty archive)
never causes a division error. -/
theorem scan_savings (zf : Archive) :
    (∀ r ∈ (scanArchive zf).1,
      r.compression_savings =
        if r.uncompressed_bytes = 0 then 0
        else round2 ((1 - (r.compressed_bytes : ℚ) / (r.uncompressed_bytes : ℚ)) * 100)) ∧
    (scanArchive zf).2.overall_compression_savings =
      (if (scanArchive zf).2.total_uncompressed = 0 then 0
       else round2 ((1 - ((scanArchive zf).2.total_compressed : ℚ) /
         ((scanArchive zf).2.total_uncompressed : ℚ)) * 100)) := by
  have hrows : (scanFold zf.infolist).rows = zf.infolist.map mkRow := by
    simpa [initAcc] using foldl_step_rows zf.infolist initAcc
  constructor
  · intro r hr
    have hr' : r ∈ zf.infolist.map mkRow := by
      have := (sortRows_perm (scanFold zf.infolist).rows).mem_iff.mp
        (by simpa only [scanArchive] using hr)
      simpa [hrows] using this
    rcases List.mem_map.mp hr' with ⟨m, _, rfl⟩
    by_cases h0 : m.file_size = 0
    · simp [mkRow, rawSavings, h0, round2_zero]
    · simp [mkRow, rawSavings, Nat.pos_of_ne_zero h0, h0]
  · simp only [scanArchive]
    by_cases h0 : (scanFold zf.infolist).total_uncompressed = 0 <;> simp [h0]

/-- C6: for every path that does not reference an existing file, the scan
fails with the not-found error and produces no rows and no summary. -/
theorem scan_notFound (fs : String → Option FsEntry) (path : String)
    (h : fs path = none) :
    scan_xlsx fs path = Except.error ScanError.notFound := by
  simp [scan_xlsx, h]

theorem scan_notFound_witness :
    scan_xlsx (fun _ => none) "missing.xlsx" = Except.error ScanError.notFound :=
  scan_notFound (fun _ => none) "missing.xlsx" rfl

/-- C7: a failure while streaming the shared-strings part is recovered
locally — the scan of the same member index returns exactly the same rows
and the same summary except that `sharedStrings_est_count` is `none` — and
when no member is named `xl/sharedStrings.xml`, both shared-strings summary
fields are `none` whatever the stream would have held, without an error. -/
theorem scan_sharedStrings_recovery (ms : List MemberInfo) (cs : List (List Nat)) :
    scanArchive ⟨ms, none⟩ =
      ((scanArchive ⟨ms, some cs⟩).1,
        { (scanArchive ⟨ms, some cs⟩).2 with sharedStrings_est_count := none }) ∧
    ((∀ m ∈ ms, m.filename ≠ "xl/sharedStrings.xml") →
      ∀ r : Option (List (List Nat)),
        (scanArchive ⟨ms, r⟩).2.sharedStrings_uncompressed = none ∧
        (scanArchive ⟨ms, r⟩).2.sharedStrings_est_count = none) := by
  constructor
  · simp only [scanArchive, count_shared_strings]
    cases h : (scanFold ms).sharedstrings_size <;> simp [h]
  · intro h r
    have hss : (scanFold ms).sharedstrings_size = none := by
      simpa [initAcc] using foldl_step_ss ms initAcc h
    simp [scanArchive, hss]

theorem scan_sharedStrings_recovery_witness :
    (scanArchive ⟨[⟨"a", 1, 2⟩], none⟩).2.sharedStrings_uncompressed = none ∧
    (scanArchive ⟨[⟨"a", 1, 2⟩], none⟩).2.sharedStrings_est_count = none :=
  (scan_sharedStrings_recovery [⟨"a", 1, 2⟩] []).2 (by decide) none

/-- C8: whenever `topRows` is non-empty, the advisor's output contains the
largest-item suggestion naming the path of its head, whatever the
threshold rules did. -/
theorem suggest_largest (summary : Summary) (worst : Row) (rest : List Row) :
    Tip.largest worst.path ∈ suggest_actions summary (worst :: rest) := by
  unfold suggest_actions
  cases hm : mediaFires summary <;>
    cases hs : ssFires summary.sharedStrings_uncompressed <;>
      cases hw : worksheetsFires summary <;> simp

/-- C9: the advisor always returns between one and four suggestions, and
the generic fallback only ever appears as the sole element of the output. -/
theorem suggest_size_and_fallback_alone (summary : Summary) (tp : List Row) :
    0 < (suggest_actions summary tp).length ∧
    (suggest_actions summary tp).length ≤ 4 ∧
    (suggest_actions summary tp = [Tip.fallback] ∨
      Tip.fallback ∉ suggest_actions summary tp) := by
  unfold suggest_actions
  cases hm : mediaFires summary <;>
    cases hs : ssFires summary.sharedStrings_uncompressed <;>
      cases hw : worksheetsFires summary <;> cases tp <;> simp

theorem suggest_size_and_fallback_alone_witness :
    0 < (suggest_actions ⟨0, 0, 0, 0, 0, 0, none, none⟩ []).length ∧
    (suggest_actions ⟨0, 0, 0, 0, 0, 0, none, none⟩ []).length ≤ 4 ∧
    (suggest_actions ⟨0, 0, 0, 0, 0, 0, none, none⟩ [] = [Tip.fallback] ∨
      Tip.fallback ∉ suggest_actions ⟨0, 0, 0, 0, 0, 0, none, none⟩ []) :=
  suggest_size_and_fallback_alone ⟨0, 0, 0, 0, 0, 0, none, none⟩ []

/-- C1 counterexample: a summary on which none of rules 1-3 fires together
with a non-empty `topRows`; the advisor emits only the largest-item tip,
and the generic fallback is not in the output, contradicting the claim
that both would coexist. -/
theorem suggest_fallback_cex :
    mediaFires ⟨0, 0, 0, 0, 0, 0, none, none⟩ = false ∧
    ssFires (none : Option Nat) = false ∧
    worksheetsFires ⟨0, 0, 0, 0, 0, 0, none, none⟩ = false ∧
    suggest_actions ⟨0, 0, 0, 0, 0, 0, none, none⟩ [⟨"xl/big.bin", 5, 5, 0⟩] =
      [Tip.largest "xl/big.bin"] ∧
    Tip.fallback ∉
      suggest_actions ⟨0, 0, 0, 0, 0, 0, none, none⟩ [⟨"xl/big.bin", 5, 5, 0⟩] := by
  decide

/-- C1 amended: the generic fallback is appended exactly when no tip at all
was produced before it — none of rules 1-3 fired and `topRows` is empty —
so it never coexists with the largest-item suggestion. -/
theorem suggest_fallback_iff (summary : Summary) (tp : List Row) :
    Tip.fallback ∈ suggest_actions summary tp ↔
      (mediaFires summary = false ∧
       ssFires summary.sharedStrings_uncompressed = false ∧
       worksheetsFires summary = false ∧ tp = []) := by
  unfold suggest_actions
  cases hm : mediaFires summary <;>
    cases hs : ssFires summary.sharedStrings_uncompressed <;>
      cases hw : worksheetsFires summary <;> cases tp <;> simp

theorem suggest_fallback_iff_witness :
    Tip.fallback ∈ suggest_actions ⟨0, 0, 0, 0, 0, 0, none, none⟩ [] :=
  (suggest_fallback_iff ⟨0, 0, 0, 0, 0, 0, none, none⟩ []).mpr (by decide)

/-- C2: evaluating the shared-strings counter on the fixture bytes
`"<si><si/><si"` (`60 115 105 62 60 115 105 47 62 60 115 105`): split into
chunks at byte offset 3 the code returns `4` — the marker that ends exactly
at the chunk boundary is recounted from the retained 3-byte carry — while
the unsplit input yields the intended `3`. -/
theorem sharedStrings_count_boundary_double :
    count_shared_strings
        ⟨[], some [[60, 115, 105], [62, 60, 115, 105, 47, 62, 60, 115, 105]]⟩ =
      some 4 ∧
    count_shared_strings
        ⟨[], some [[60, 115, 105, 62, 60, 115, 105, 47, 62, 60, 115, 105]]⟩ =
      some 3 := by
  decide

/-- C10: scanning a valid archive with zero members succeeds: rows are
empty, all totals are `0`, the overall savings percentage is `0`, and both
shared-strings fields are `none`. -/
theorem scan_empty_archive :
    scan_xlsx (fun _ => some (FsEntry.valid ⟨[], none⟩)) "empty.xlsx" =
      Except.ok ([], { total_uncompressed := 0
                       total_compressed := 0
                       overall_compression_savings := 0
                       media_count := 0
                       media_uncompressed_total := 0
                       worksheets_uncompressed_total := 0
                       sharedStrings_uncompressed := none
                       sharedStrings_est_count := none }) :=
  rfl

/-- C5 witness carrier: a row observed for a zero-byte member. -/
theorem scan_savings_witness :
    mkRow ⟨"z", 0, 0⟩ ∈ (scanArchive ⟨[⟨"z", 0, 0⟩], none⟩).1 ∧
    (mkRow ⟨"z", 0, 0⟩).compression_savings =
      (if (mkRow ⟨"z", 0, 0⟩).uncompressed_bytes = 0 then 0
       else round2 ((1 - ((mkRow ⟨"z", 0, 0⟩).compressed_bytes : ℚ) /
         ((mkRow ⟨"z", 0, 0⟩).uncompressed_bytes : ℚ)) * 100)) := by
  have h0 : mkRow ⟨"z", 0, 0⟩ ∈ (scanArchive ⟨[⟨"z", 0, 0⟩], none⟩).1 := by
    simp [scanArchive, scanFold, step, initAcc, sortRows, insertRow]
  exact ⟨h0, (scan_savings ⟨[⟨"z", 0, 0⟩], none⟩).1 _ h0⟩

end XlsxAudit
